import Mathlib

/-!
Shallow embedding of `sdk/python/kfp/compiler/_default_transformers.py`.

Python strings are modelled as Lean `String` (a list of unicode scalar
characters); Python dicts of labels are modelled as association lists
`List (String × String)` without duplicate keys in normal use, where
`dict[k] = v` assignment replaces the value of an existing key in place and
otherwise appends the pair at the end (insertion order preserved), exactly as
Python dicts behave.  A Python function that can raise is modelled with
`Option` (`none` = exception).  The task object is modelled by the `Task`
structure holding the fields the transformers read or write.
-/

namespace KfpTransformers

/-- Python truthiness of an optional string attribute: `None` and the empty
string are falsy, every other string is truthy. -/
def pyTruthy (o : Option String) : Bool :=
  match o with
  | none => false
  | some s => !s.data.isEmpty

/-- Python `k in d` for a dict modelled as an association list. -/
def keyMem (k : String) (d : List (String × String)) : Bool :=
  d.any (fun kv => kv.1 == k)

/-- Python `d.get(k, None)` for a dict modelled as an association list. -/
def lookupVal (d : List (String × String)) (k : String) : Option String :=
  (d.find? (fun kv => kv.1 == k)).map Prod.snd

/-- Python `d[k] = v`: replace the value of an existing key in place, keeping
the dict order, otherwise append the new pair at the end. -/
def dictSet (d : List (String × String)) (k v : String) : List (String × String) :=
  if keyMem k d then d.map (fun kv => if kv.1 == k then (k, v) else kv)
  else d ++ [(k, v)]

/-- A Kubernetes env-var descriptor built by `add_pod_env`:
`V1EnvVar(name=..., value_from=V1EnvVarSource(field_ref=V1ObjectFieldSelector(field_path=...)))`. -/
structure EnvVarDescr where
  name : String
  fieldPath : String
deriving DecidableEq, Repr

/-- The `_component_ref` descriptor: `url` and `digest` string fields, each of
which may be `None` (or empty, which Python treats the same under `if`). -/
structure ComponentRef where
  url : Option String
  digest : Option String
deriving DecidableEq, Repr

/-- The task/operation object (`BaseOp`).  `isContainerOp` records whether the
task is the container-backed variant (`isinstance(op, ContainerOp)`);
`containerEnv` is the env list of its container spec; `_component_ref` is
absent (`getattr(task, '_component_ref', None)` returns `None`) when `none`. -/
structure Task where
  isContainerOp : Bool
  pod_labels : List (String × String)
  containerEnv : List EnvVarDescr
  _component_ref : Option ComponentRef
deriving DecidableEq, Repr

/-- `BaseOp.add_pod_label(name, value)`: `self.pod_labels[name] = value`. -/
def Task.add_pod_label (t : Task) (k v : String) : Task :=
  { t with pod_labels := dictSet t.pod_labels k v }

/-- `_SDK_ENV_LABEL` constant. -/
def _SDK_ENV_LABEL : String := "pipelines.kubeflow.org/pipeline-sdk-type"

/-- `_SDK_ENV_DEFAULT` constant. -/
def _SDK_ENV_DEFAULT : String := "kfp"

/-- The `_OOB_COMPONENT_PATH_` trusted-start constant of the source file:
common start of KFP OOB components url paths. -/
def _OOB_COMPONENT_PATH_START : String :=
  "https://raw.githubusercontent.com/kubeflow/pipelines"

/-- `COMPONENT_PATH_LABEL_KEY` constant. -/
def COMPONENT_PATH_LABEL_KEY : String := "pipelines.kubeflow.org/component_origin_path"

/-- `COMPONENT_DIGEST_LABEL_KEY` constant. -/
def COMPONENT_DIGEST_LABEL_KEY : String := "pipelines.kubeflow.org/component_digest"

/-- `get_default_telemetry_labels()`. -/
def get_default_telemetry_labels : List (String × String) :=
  [(_SDK_ENV_LABEL, _SDK_ENV_DEFAULT)]

/-- The `KFP_POD_NAME` env var added by `add_pod_env`. -/
def KFP_POD_NAME_ENV : EnvVarDescr := ⟨"KFP_POD_NAME", "metadata.name"⟩

/-- The `KFP_NAMESPACE` env var added by `add_pod_env`. -/
def KFP_NAMESPACE_ENV : EnvVarDescr := ⟨"KFP_NAMESPACE", "metadata.namespace"⟩

/-- `add_pod_env(op)`: if `op` is a `ContainerOp`, `op.pod_labels` is truthy
(non-empty) and `op.pod_labels.get('add-pod-env', None) == 'true'`, append the
two env-var descriptors to the container env; otherwise return `op` unchanged. -/
def add_pod_env (op : Task) : Task :=
  if op.isContainerOp && !op.pod_labels.isEmpty
      && (lookupVal op.pod_labels "add-pod-env" == some "true") then
    { op with containerEnv := op.containerEnv ++ [KFP_POD_NAME_ENV, KFP_NAMESPACE_ENV] }
  else op

/-- The loop body of the `_add_pod_labels` closure: for each `(k, v)` of the
configured mapping (in dict order), add it with `task.add_pod_label(k, v)`
only when `k not in task.pod_labels`. -/
def addLabelsLoop : List (String × String) → Task → Task
  | [], t => t
  | (k, v) :: rest, t =>
      if keyMem k t.pod_labels then addLabelsLoop rest t
      else addLabelsLoop rest (t.add_pod_label k v)

/-- The `_add_pod_labels` closure returned by `add_pod_labels(labels)`.  The
`labels` argument of the factory defaults to `None` in the source; when it is
`None`, `labels.items()` raises `AttributeError`, modelled as `none`. -/
def _add_pod_labels (labels : Option (List (String × String))) (task : Task) : Option Task :=
  match labels with
  | none => none
  | some ls => some (addLabelsLoop ls task)

/-- `add_pod_labels(labels=None)` factory: returns the closure. -/
def add_pod_labels (labels : Option (List (String × String))) : Task → Option Task :=
  fun task => _add_pod_labels labels task

/-- Python `s.endswith(suffix)`. -/
def pyEndsWith (s suffix : String) : Bool :=
  suffix.data.isSuffixOf s.data

/-- `_remove_suffix(string, suffix)`: if `suffix` is truthy and `string` ends
with it, return `string[:-len(suffix)]`, else return `string` unchanged. -/
def _remove_suffix (string suffix : String) : String :=
  if !suffix.data.isEmpty && pyEndsWith string suffix then
    String.mk (string.data.take (string.data.length - suffix.data.length))
  else string

/-- Python `s.rstrip('/')`: remove all trailing slash characters. -/
def pyRstripSlash (s : String) : String :=
  String.mk (s.data.reverse.dropWhile (fun c => c == '/')).reverse

/-- Python `s.startswith(p)`. -/
def pyStartsWith (s p : String) : Bool :=
  p.data.isPrefixOf s.data

/-- Helper for Python `s.split(sep, maxsplit)`: splits while the split budget
lasts, accumulating the current field in reverse in `acc`; once the budget is
exhausted the rest of the characters form the final field verbatim. -/
def pySplitAux (sep : Char) : Nat → List Char → List Char → List (List Char)
  | _, acc, [] => [acc.reverse]
  | Nat.succ n, acc, c :: cs =>
      if c == sep then acc.reverse :: pySplitAux sep n [] cs
      else pySplitAux sep (Nat.succ n) (c :: acc) cs
  | 0, acc, cs => [acc.reverse ++ cs]

/-- Python `s.split(sep, maxsplit)` for a one-character separator: at most
`maxsplit` splits, hence at most `maxsplit + 1` fields. -/
def pySplit (s : String) (sep : Char) (maxsplit : Nat) : List String :=
  (pySplitAux sep maxsplit [] s.data).map String.mk

/-- Python `lst[-1]` on the (always non-empty) result of `split`. -/
def pyLast (l : List String) : String :=
  l.getLastD ""

/-- A character matched by the regex class `[-a-z0-9A-Z_.]`. -/
def isLabelChar (c : Char) : Bool :=
  c == '-' || (decide ('a' ≤ c) && decide (c ≤ 'z'))
    || (decide ('0' ≤ c) && decide (c ≤ '9'))
    || (decide ('A' ≤ c) && decide (c ≤ 'Z'))
    || c == '_' || c == '.'

/-- `re.sub('[^-a-z0-9A-Z_.]', '.', s)`: replace every character outside the
class with a dot. -/
def reSubSanitize (s : String) : String :=
  String.mk (s.data.map (fun c => if isLabelChar c then c else '.'))

/-- Python `s[-63:]` generalised: the last `n` characters of `s` (all of `s`
when it is shorter). -/
def lastChars (s : String) (n : Nat) : String :=
  String.mk (s.data.drop (s.data.length - n))

/-- Python `s[:n]`: the first `n` characters of `s`. -/
def firstChars (s : String) (n : Nat) : String :=
  String.mk (s.data.take n)

/-- A character of the strip set of `.strip('-_.')`. -/
def isStripChar (c : Char) : Bool :=
  c == '-' || c == '_' || c == '.'

/-- Python `s.strip('-_.')`: remove leading and trailing characters drawn from
`-`, `_`, `.`. -/
def pyStripPunct (s : String) : String :=
  String.mk (((s.data.dropWhile isStripChar).reverse.dropWhile isStripChar).reverse)

/-- The `origin_path` computed from a component url:
`_remove_suffix(url, 'component.yaml').rstrip('/')`. -/
def originPathOf (url : String) : String :=
  pyRstripSlash (_remove_suffix url "component.yaml")

/-- The origin-path label value derived from a trusted `origin_path`:
`re.sub('[^-a-z0-9A-Z_.]', '.', origin_path.split('/', 7)[-1])[-63:].strip('-_.')`. -/
def originLabelOf (origin_path : String) : String :=
  pyStripPunct (lastChars (reSubSanitize (pyLast (pySplit origin_path '/' 7))) 63)

/-- The `_add_name_for_oob_components` closure.  The early `return task` taken
when the url does not start with the trusted path start is modelled by the
intermediate `Option Task` (`none` = early return, skipping the digest step). -/
def _add_name_for_oob_components (task : Task) : Task :=
  match task._component_ref with
  | none => task
  | some component_ref =>
      let afterUrl : Option Task :=
        if pyTruthy component_ref.url then
          let origin_path := originPathOf (component_ref.url.getD "")
          if pyStartsWith origin_path _OOB_COMPONENT_PATH_START then
            some (task.add_pod_label COMPONENT_PATH_LABEL_KEY (originLabelOf origin_path))
          else none
        else some task
      match afterUrl with
      | none => task
      | some task1 =>
          if pyTruthy component_ref.digest then
            task1.add_pod_label COMPONENT_DIGEST_LABEL_KEY
              (firstChars (component_ref.digest.getD "") 63)
          else task1

/-- `add_name_for_oob_components()` factory: returns the closure. -/
def add_name_for_oob_components : Task → Task :=
  fun task => _add_name_for_oob_components task

/-- Kubernetes label-value syntax: only characters of `[-a-zA-Z0-9_.]`, length
at most 63, and no leading or trailing `-`, `_`, `.`. -/
def k8sLabelValueOk (v : String) : Bool :=
  v.data.all isLabelChar && decide (v.data.length ≤ 63)
    && (match v.data.head? with
        | some c => !isStripChar c
        | none => true)
    && (match v.data.getLast? with
        | some c => !isStripChar c
        | none => true)

end KfpTransformers

namespace KfpTransformers

/-! ### Association-list (Python dict) lemmas -/

theorem keyMem_append (k : String) (d e : List (String × String)) :
    keyMem k (d ++ e) = (keyMem k d || keyMem k e) := by
  simp [keyMem, List.any_append]

theorem lookupVal_append_left (k : String) (d e : List (String × String))
    (h : keyMem k d = true) : lookupVal (d ++ e) k = lookupVal d k := by
  rw [keyMem, List.any_eq_true] at h
  have hs : (d.find? (fun kv => kv.1 == k)).isSome = true := List.find?_isSome.2 h
  obtain ⟨y, hy⟩ := Option.isSome_iff_exists.1 hs
  simp [lookupVal, List.find?_append, hy]

theorem lookupVal_append_single (k v : String) (d : List (String × String))
    (h : keyMem k d = false) : lookupVal (d ++ [(k, v)]) k = some v := by
  have hn : d.find? (fun kv => kv.1 == k) = none := by
    rw [List.find?_eq_none]
    intro x hx hpx
    have : keyMem k d = true := by
      rw [keyMem, List.any_eq_true]; exact ⟨x, hx, hpx⟩
    simp [this] at h
  simp [lookupVal, List.find?_append, hn, List.find?_cons]

theorem dictSet_of_not_mem (k v : String) (d : List (String × String))
    (h : keyMem k d = false) : dictSet d k v = d ++ [(k, v)] := by
  simp [dictSet, h]

theorem lookupVal_map_set (k v : String) (d : List (String × String)) :
    lookupVal (d.map (fun kv => if kv.1 == k then (k, v) else kv)) k
      = if keyMem k d then some v else none := by
  induction d with
  | nil => simp [lookupVal, keyMem]
  | cons a d ih =>
      simp only [List.map_cons]
      by_cases ha : a.1 = k
      · have hb : (a.1 == k) = true := by simp [ha]
        simp [lookupVal, List.find?_cons, hb, keyMem]
      · have hb : (a.1 == k) = false := by simp [ha]
        simp only [hb, Bool.false_eq_true, if_false]
        rw [lookupVal, List.find?_cons]
        simp only [hb]
        rw [show keyMem k (a :: d) = keyMem k d by simp [keyMem, hb]]
        exact ih

theorem lookupVal_dictSet_self (k v : String) (d : List (String × String)) :
    lookupVal (dictSet d k v) k = some v := by
  by_cases h : keyMem k d
  · rw [dictSet, if_pos h, lookupVal_map_set, if_pos h]
  · rw [dictSet_of_not_mem k v d (by simpa using h)]
    exact lookupVal_append_single k v d (by simpa using h)

/-! ### Telemetry labels (C9) -/

/-- Claim C9: `get_default_telemetry_labels` takes no input, is a pure
constant, and always returns exactly the one-entry mapping
`{"pipelines.kubeflow.org/pipeline-sdk-type": "kfp"}`. -/
theorem get_default_telemetry_labels_constant :
    get_default_telemetry_labels
      = [("pipelines.kubeflow.org/pipeline-sdk-type", "kfp")] := rfl

/-! ### `_remove_suffix` (C10) -/

/-- Claim C10: for every string `s` and non-empty suffix `t`, if `s` ends with
`t` then `_remove_suffix s t ++ t = s` (exactly one trailing occurrence is
removed), otherwise `_remove_suffix s t = s`; for an empty `t` the result is
always `s` unchanged. -/
theorem remove_suffix_spec (s t : String) :
    (t ≠ "" →
      (pyEndsWith s t = true → _remove_suffix s t ++ t = s) ∧
      (pyEndsWith s t = false → _remove_suffix s t = s)) ∧
    (t = "" → _remove_suffix s t = s) := by
  constructor
  · intro ht
    constructor
    · intro hends
      have hsuf : t.data <:+ s.data := List.isSuffixOf_iff_suffix.1 hends
      obtain ⟨pre, hpre⟩ := hsuf
      have hne : t.data.isEmpty = false := by
        cases t with
        | mk data =>
          cases data with
          | nil => exact absurd rfl ht
          | cons c cs => rfl
      apply String.ext
      rw [String.data_append]
      simp only [_remove_suffix, hne, Bool.not_false, Bool.true_and, hends, if_true]
      have hlen : s.data.length - t.data.length = pre.length := by
        rw [← hpre, List.length_append]; omega
      rw [hlen, ← hpre, List.take_left]
    · intro hne
      simp [_remove_suffix, hne]
  · intro ht
    subst ht
    rfl

/-- Witness for C10 at a concrete input: removing the suffix
`"component.yaml"` from `"xcomponent.yaml"` gives back the original when the
suffix is re-appended. -/
theorem remove_suffix_spec_witness :
    _remove_suffix "xcomponent.yaml" "component.yaml" ++ "component.yaml"
      = "xcomponent.yaml" :=
  ((remove_suffix_spec "xcomponent.yaml" "component.yaml").1 (by decide)).1 (by decide)

end KfpTransformers

namespace KfpTransformers

/-! ### `add_pod_labels` loop lemmas -/

theorem addLabelsLoop_pod_labels_ext :
    ∀ (L : List (String × String)) (t : Task),
      ∃ e, (addLabelsLoop L t).pod_labels = t.pod_labels ++ e := by
  intro L
  induction L with
  | nil => intro t; exact ⟨[], by simp [addLabelsLoop]⟩
  | cons hd rest ih =>
      intro t
      obtain ⟨k, v⟩ := hd
      by_cases h : keyMem k t.pod_labels
      · obtain ⟨e, he⟩ := ih t
        refine ⟨e, ?_⟩
        simp only [addLabelsLoop]
        rw [if_pos h]
        exact he
      · obtain ⟨e, he⟩ := ih (t.add_pod_label k v)
        refine ⟨(k, v) :: e, ?_⟩
        simp only [addLabelsLoop]
        rw [if_neg h, he, Task.add_pod_label,
          dictSet_of_not_mem k v t.pod_labels (by simpa using h)]
        simp

theorem keyMem_addLabelsLoop (L : List (String × String)) (t : Task) (k : String)
    (h : keyMem k t.pod_labels = true) :
    keyMem k (addLabelsLoop L t).pod_labels = true := by
  obtain ⟨e, he⟩ := addLabelsLoop_pod_labels_ext L t
  rw [he, keyMem_append, h, Bool.true_or]

theorem lookupVal_addLabelsLoop_pres (L : List (String × String)) (t : Task) (k : String)
    (h : keyMem k t.pod_labels = true) :
    lookupVal (addLabelsLoop L t).pod_labels k = lookupVal t.pod_labels k := by
  obtain ⟨e, he⟩ := addLabelsLoop_pod_labels_ext L t
  rw [he]
  exact lookupVal_append_left k t.pod_labels e h

theorem keyMem_addLabelsLoop_of_mem :
    ∀ (L : List (String × String)) (t : Task), ∀ kv ∈ L,
      keyMem kv.1 (addLabelsLoop L t).pod_labels = true := by
  intro L
  induction L with
  | nil => intro t kv hkv; cases hkv
  | cons hd rest ih =>
      intro t kv hkv
      obtain ⟨k0, v0⟩ := hd
      simp only [addLabelsLoop]
      rcases List.mem_cons.1 hkv with rfl | hkv
      · by_cases h : keyMem k0 t.pod_labels
        · rw [if_pos h]
          exact keyMem_addLabelsLoop rest t k0 h
        · rw [if_neg h]
          refine keyMem_addLabelsLoop rest _ k0 ?_
          rw [Task.add_pod_label]
          show keyMem k0 (dictSet t.pod_labels k0 v0) = true
          rw [dictSet_of_not_mem _ _ _ (by simpa using h), keyMem_append]
          simp [keyMem]
      · by_cases h : keyMem k0 t.pod_labels
        · rw [if_pos h]; exact ih t kv hkv
        · rw [if_neg h]; exact ih _ kv hkv

theorem lookupVal_addLabelsLoop_new :
    ∀ (L : List (String × String)) (t : Task), (L.map Prod.fst).Nodup →
      ∀ kv ∈ L, keyMem kv.1 t.pod_labels = false →
      lookupVal (addLabelsLoop L t).pod_labels kv.1 = some kv.2 := by
  intro L
  induction L with
  | nil => intro t _ kv hkv; cases hkv
  | cons hd rest ih =>
      intro t hnd kv hkv hmem
      obtain ⟨k0, v0⟩ := hd
      have hnd2 : (k0 :: rest.map Prod.fst).Nodup := by simpa using hnd
      obtain ⟨hk0, hnd'⟩ := List.nodup_cons.1 hnd2
      simp only [addLabelsLoop]
      rcases List.mem_cons.1 hkv with rfl | hkv
      · rw [if_neg (by simp [hmem])]
        have hpl : (t.add_pod_label k0 v0).pod_labels
            = t.pod_labels ++ [(k0, v0)] := by
          rw [Task.add_pod_label]
          show dictSet t.pod_labels k0 v0 = t.pod_labels ++ [(k0, v0)]
          exact dictSet_of_not_mem _ _ _ hmem
        have hm : keyMem k0 (t.add_pod_label k0 v0).pod_labels = true := by
          rw [hpl, keyMem_append]; simp [keyMem]
        rw [lookupVal_addLabelsLoop_pres rest _ k0 hm, hpl,
          lookupVal_append_single k0 v0 t.pod_labels hmem]
      · have hne : kv.1 ≠ k0 := by
          intro hc
          exact hk0 (hc ▸ List.mem_map_of_mem Prod.fst hkv)
        by_cases h : keyMem k0 t.pod_labels
        · rw [if_pos h]; exact ih t hnd' kv hkv hmem
        · rw [if_neg h]
          refine ih _ hnd' kv hkv ?_
          rw [Task.add_pod_label]
          show keyMem kv.1 (dictSet t.pod_labels k0 v0) = false
          rw [dictSet_of_not_mem _ _ _ (by simpa using h), keyMem_append, hmem]
          simp [keyMem]
          exact fun hc => hne hc.symm

theorem addLabelsLoop_eq_of_all_mem :
    ∀ (L : List (String × String)) (t : Task),
      (∀ kv ∈ L, keyMem kv.1 t.pod_labels = true) → addLabelsLoop L t = t := by
  intro L
  induction L with
  | nil => intro t _; rfl
  | cons hd rest ih =>
      intro t h
      obtain ⟨k0, v0⟩ := hd
      simp only [addLabelsLoop]
      rw [if_pos (h (k0, v0) (List.mem_cons_self _ _))]
      exact ih t (fun kv hkv => h kv (List.mem_cons_of_mem _ hkv))

end KfpTransformers

namespace KfpTransformers

/-- A concrete task with a single pre-existing label `{"a": "9"}`. -/
def taskA9 : Task :=
  { isContainerOp := false, pod_labels := [("a", "9")], containerEnv := [],
    _component_ref := none }

/-- Claim C3: for every configured mapping `L` (a Python dict, hence with
distinct keys) and every task, the transformer returned by
`add_pod_labels` returns `some` task in which every key already present kept
its old value, every key of `L` not already present was added with its
configured value, and in particular config `{"a": "1", "b": "2"}` on a task
with labels `{"a": "9"}` gives exactly `{"a": "9", "b": "2"}`. -/
theorem add_pod_labels_additive (L : List (String × String)) (t : Task)
    (hnd : (L.map Prod.fst).Nodup) :
    add_pod_labels (some L) t = some (addLabelsLoop L t) ∧
    (∀ k, keyMem k t.pod_labels = true →
        lookupVal (addLabelsLoop L t).pod_labels k = lookupVal t.pod_labels k) ∧
    (∀ kv ∈ L, keyMem kv.1 t.pod_labels = false →
        lookupVal (addLabelsLoop L t).pod_labels kv.1 = some kv.2) ∧
    (add_pod_labels (some [("a", "1"), ("b", "2")]) taskA9).map Task.pod_labels
      = some [("a", "9"), ("b", "2")] := by
  refine ⟨rfl, ?_, ?_, by decide⟩
  · intro k hk
    exact lookupVal_addLabelsLoop_pres L t k hk
  · intro kv hkv hmem
    exact lookupVal_addLabelsLoop_new L t hnd kv hkv hmem

/-- Witness for C3 at the concrete config and task of the claim: the existing
key keeps its value and the new key is added with its configured value. -/
theorem add_pod_labels_additive_witness :
    lookupVal (addLabelsLoop [("a", "1"), ("b", "2")] taskA9).pod_labels "a"
        = lookupVal taskA9.pod_labels "a" ∧
    lookupVal (addLabelsLoop [("a", "1"), ("b", "2")] taskA9).pod_labels "b"
        = some "2" :=
  ⟨(add_pod_labels_additive [("a", "1"), ("b", "2")] taskA9 (by decide)).2.1
      "a" (by decide),
   (add_pod_labels_additive [("a", "1"), ("b", "2")] taskA9 (by decide)).2.2.1
      ("b", "2") (by decide) (by decide)⟩

/-- Claim C8: the static label injector is idempotent — applying the
transformer returned by `add_pod_labels` twice yields the same result as
applying it once, and the original label list is always a prefix of the
result (no key is ever overwritten). -/
theorem add_pod_labels_idempotent (L : List (String × String)) (t : Task) :
    Option.bind (add_pod_labels (some L) t) (add_pod_labels (some L))
        = add_pod_labels (some L) t ∧
    ∃ e, (addLabelsLoop L t).pod_labels = t.pod_labels ++ e := by
  constructor
  · show some (addLabelsLoop L (addLabelsLoop L t)) = some (addLabelsLoop L t)
    congr 1
    exact addLabelsLoop_eq_of_all_mem L (addLabelsLoop L t)
      (fun kv hkv => keyMem_addLabelsLoop_of_mem L t kv hkv)
  · exact addLabelsLoop_pod_labels_ext L t

/-- Claim C4: `add_pod_env` appends exactly the two env-var descriptors
`KFP_POD_NAME` (from `metadata.name`) and `KFP_NAMESPACE` (from
`metadata.namespace`) to the container env iff the task is container-backed
and its labels map the key `add-pod-env` to exactly `"true"`; every other
task is returned unchanged. -/
theorem add_pod_env_characterisation (t : Task) :
    add_pod_env t =
      if t.isContainerOp = true ∧ lookupVal t.pod_labels "add-pod-env" = some "true"
      then { t with containerEnv :=
              t.containerEnv ++ [KFP_POD_NAME_ENV, KFP_NAMESPACE_ENV] }
      else t := by
  obtain ⟨ic, pl, ce, cr⟩ := t
  rw [add_pod_env]
  rcases pl with _ | ⟨kv, rest⟩
  · simp [lookupVal]
  · cases ic
    · simp
    · by_cases hget : lookupVal (kv :: rest) "add-pod-env" = some "true"
      · simp [hget]
      · simp [hget]

end KfpTransformers

namespace KfpTransformers

/-! ### Strip/character lemmas for the origin-path label -/

theorem dropWhile_head_false {α : Type} (p : α → Bool) :
    ∀ (l : List α) (c : α) (cs : List α), l.dropWhile p = c :: cs → p c = false := by
  intro l
  induction l with
  | nil => intro c cs h; simp at h
  | cons a l ih =>
      intro c cs h
      rw [List.dropWhile_cons] at h
      by_cases ha : p a
      · rw [if_pos ha] at h
        exact ih c cs h
      · rw [if_neg ha] at h
        injection h with h1 h2
        subst h1
        simpa using ha

theorem getLast?_dropWhile_eq {α : Type} (p : α → Bool) :
    ∀ (l : List α), l.dropWhile p ≠ [] → (l.dropWhile p).getLast? = l.getLast? := by
  intro l
  induction l with
  | nil => intro h; simp at h
  | cons a l ih =>
      intro h
      rw [List.dropWhile_cons] at h ⊢
      by_cases ha : p a
      · rw [if_pos ha] at h ⊢
        obtain ⟨b, l2, rfl⟩ : ∃ b l2, l = b :: l2 := by
          cases l with
          | nil => simp at h
          | cons b l2 => exact ⟨b, l2, rfl⟩
        rw [List.getLast?_cons_cons]
        exact ih h
      · rw [if_neg ha]

theorem stripList_props {α : Type} (p : α → Bool) (l : List α) :
    (∀ c ∈ ((l.dropWhile p).reverse.dropWhile p).reverse, c ∈ l) ∧
    ((l.dropWhile p).reverse.dropWhile p).reverse.length ≤ l.length ∧
    (∀ c, ((l.dropWhile p).reverse.dropWhile p).reverse.head? = some c → p c = false) ∧
    (∀ c, ((l.dropWhile p).reverse.dropWhile p).reverse.getLast? = some c → p c = false) := by
  refine ⟨?_, ?_, ?_, ?_⟩
  · intro c hc
    rw [List.mem_reverse] at hc
    have hc2 := (List.dropWhile_sublist p).subset hc
    rw [List.mem_reverse] at hc2
    exact (List.dropWhile_sublist p).subset hc2
  · rw [List.length_reverse]
    calc ((l.dropWhile p).reverse.dropWhile p).length
        ≤ (l.dropWhile p).reverse.length := (List.dropWhile_sublist p).length_le
      _ = (l.dropWhile p).length := List.length_reverse _
      _ ≤ l.length := (List.dropWhile_sublist p).length_le
  · intro c h
    rw [List.head?_reverse] at h
    have ht : (l.dropWhile p).reverse.dropWhile p ≠ [] := by
      intro he
      rw [he] at h
      cases h
    rw [getLast?_dropWhile_eq p _ ht, List.getLast?_reverse] at h
    cases hdw : l.dropWhile p with
    | nil => rw [hdw] at h; cases h
    | cons c0 cs =>
        rw [hdw] at h
        injection h with h1
        subst h1
        exact dropWhile_head_false p l c0 cs hdw
  · intro c h
    rw [List.getLast?_reverse] at h
    cases hdw : (l.dropWhile p).reverse.dropWhile p with
    | nil => rw [hdw] at h; cases h
    | cons c0 cs =>
        rw [hdw] at h
        injection h with h1
        subst h1
        exact dropWhile_head_false p (l.dropWhile p).reverse c0 cs hdw

theorem k8sLabelValueOk_intro (v : String)
    (h1 : ∀ c ∈ v.data, isLabelChar c = true)
    (h2 : v.data.length ≤ 63)
    (h3 : ∀ c, v.data.head? = some c → isStripChar c = false)
    (h4 : ∀ c, v.data.getLast? = some c → isStripChar c = false) :
    k8sLabelValueOk v = true := by
  rw [k8sLabelValueOk]
  have b1 : v.data.all isLabelChar = true := List.all_eq_true.2 h1
  have b2 : decide (v.data.length ≤ 63) = true := decide_eq_true h2
  have b3 : (match v.data.head? with
      | some c => !isStripChar c
      | none => true) = true := by
    cases hh : v.data.head? with
    | none => rfl
    | some c => simp [h3 c hh]
  have b4 : (match v.data.getLast? with
      | some c => !isStripChar c
      | none => true) = true := by
    cases hh : v.data.getLast? with
    | none => rfl
    | some c => simp [h4 c hh]
  rw [b1, b2, b3, b4]
  rfl

theorem all_isLabelChar_reSubSanitize (s : String) :
    ∀ c ∈ (reSubSanitize s).data, isLabelChar c = true := by
  intro c hc
  rw [reSubSanitize] at hc
  obtain ⟨a, -, rfl⟩ := List.mem_map.1 hc
  by_cases h : isLabelChar a
  · rw [if_pos h]; exact h
  · rw [if_neg h]; decide

theorem k8sLabelValueOk_originLabelOf (origin_path : String) :
    k8sLabelValueOk (originLabelOf origin_path) = true := by
  rw [originLabelOf]
  generalize pyLast (pySplit origin_path '/' 7) = s
  obtain ⟨hmem, hlen, hhead, hlast⟩ :=
    stripList_props isStripChar (lastChars (reSubSanitize s) 63).data
  refine k8sLabelValueOk_intro _ ?_ ?_ hhead hlast
  · intro c hc
    have hc2 := hmem c hc
    rw [lastChars] at hc2
    exact all_isLabelChar_reSubSanitize s c (List.mem_of_mem_drop hc2)
  · refine le_trans hlen ?_
    rw [lastChars]
    show ((reSubSanitize s).data.drop ((reSubSanitize s).data.length - 63)).length ≤ 63
    rw [List.length_drop]
    omega

end KfpTransformers

namespace KfpTransformers

/-! ### `_add_name_for_oob_components` claims -/

/-- Claim C2: when the component url is present but, after suffix- and
trailing-slash-stripping, does not start with the trusted KFP path start, the
transformer returns the task completely unchanged — no origin label and no
digest label, even when a digest is present. -/
theorem oob_untrusted_url_unchanged (t : Task) (cr : ComponentRef)
    (h1 : t._component_ref = some cr)
    (h2 : pyTruthy cr.url = true)
    (h3 : pyStartsWith (originPathOf (cr.url.getD "")) _OOB_COMPONENT_PATH_START
        = false) :
    _add_name_for_oob_components t = t := by
  simp [_add_name_for_oob_components, h1, h2, h3]

/-- A concrete task whose component url does not match the trusted path start
although a digest is present. -/
def taskUntrusted : Task :=
  { isContainerOp := false, pod_labels := [], containerEnv := [],
    _component_ref := some
      { url := some "https://example.com/x/component.yaml", digest := some "abc" } }

/-- Witness for C2 at the concrete untrusted url of the spec. -/
theorem oob_untrusted_url_unchanged_witness :
    _add_name_for_oob_components taskUntrusted = taskUntrusted :=
  oob_untrusted_url_unchanged taskUntrusted
    { url := some "https://example.com/x/component.yaml", digest := some "abc" }
    (by decide) (by decide) (by decide)

/-- Claim C5: whenever the component digest is present and the url, if
present, passes the trusted-path check, the digest label is set to exactly the
first 63 characters of the digest, with no sanitization. -/
theorem oob_digest_label (t : Task) (cr : ComponentRef)
    (h1 : t._component_ref = some cr)
    (hd : pyTruthy cr.digest = true)
    (hurl : pyTruthy cr.url = false ∨
      pyStartsWith (originPathOf (cr.url.getD "")) _OOB_COMPONENT_PATH_START = true) :
    lookupVal (_add_name_for_oob_components t).pod_labels COMPONENT_DIGEST_LABEL_KEY
      = some (firstChars (cr.digest.getD "") 63) := by
  have key : ∀ x : Task,
      lookupVal (x.add_pod_label COMPONENT_DIGEST_LABEL_KEY
          (firstChars (cr.digest.getD "") 63)).pod_labels COMPONENT_DIGEST_LABEL_KEY
        = some (firstChars (cr.digest.getD "") 63) := by
    intro x
    exact lookupVal_dictSet_self _ _ _
  cases hq : pyTruthy cr.url with
  | false =>
      simp only [_add_name_for_oob_components, h1, hq, Bool.false_eq_true, if_false,
        hd, if_true]
      exact key t
  | true =>
      have hu : pyStartsWith (originPathOf (cr.url.getD ""))
          _OOB_COMPONENT_PATH_START = true := by
        rcases hurl with hu | hu
        · rw [hq] at hu; cases hu
        · exact hu
      simp only [_add_name_for_oob_components, h1, hq, hu, hd, if_true]
      exact key _

/-- A 70-character digest: `"abcdef0123456789"` left-justified to 70 with
zeros. -/
def digest70 : String :=
  "abcdef0123456789000000000000000000000000000000000000000000000000000000"

/-- A concrete task with no url and the 70-character digest. -/
def taskDigest70 : Task :=
  { isContainerOp := false, pod_labels := [], containerEnv := [],
    _component_ref := some { url := none, digest := some digest70 } }

/-- Witness for C5: the stored value for the 70-character digest is exactly
its first 63 characters. -/
theorem oob_digest_label_witness :
    lookupVal (_add_name_for_oob_components taskDigest70).pod_labels
        COMPONENT_DIGEST_LABEL_KEY
      = some "abcdef012345678900000000000000000000000000000000000000000000000"
      ∧ ("abcdef012345678900000000000000000000000000000000000000000000000" : String).data.length = 63 := by
  constructor
  · have h := oob_digest_label taskDigest70
      { url := none, digest := some digest70 } (by decide) (by decide)
      (Or.inl (by decide))
    rw [h]
    decide
  · decide

/-- The concrete task of claim C1: an OOB component url under
`components/foo/bar/`. -/
def taskOobUrl : Task :=
  { isContainerOp := false, pod_labels := [], containerEnv := [],
    _component_ref := some
      { url := some
          "https://raw.githubusercontent.com/kubeflow/pipelines/master/components/foo/bar/component.yaml",
        digest := none } }

/-- Counterexample to claim C1: for the url of the claim the origin label is
`"foo.bar"`, not `"bar"` — splitting the stripped url on `/` with at most 7
splits leaves `"foo/bar"` as the final field (the url has eight slashes), and
sanitization maps the remaining slash to a dot. -/
theorem oob_origin_label_not_bar :
    lookupVal (_add_name_for_oob_components taskOobUrl).pod_labels
        COMPONENT_PATH_LABEL_KEY = some "foo.bar"
      ∧ some ("foo.bar" : String) ≠ some ("bar" : String) := by decide

/-- Claim C1 (amended): for the url of the claim, the transformer adds exactly
the origin label with value `"foo.bar"` — the component sub-path after the
seventh slash, with `/` sanitized to `.`. -/
theorem oob_origin_label_value :
    (_add_name_for_oob_components taskOobUrl).pod_labels
      = [(COMPONENT_PATH_LABEL_KEY, "foo.bar")] := by decide

/-- Claim C6 (amended): the origin-path label value always satisfies
Kubernetes label syntax, for every url; the digest label value is only
guaranteed to have at most 63 characters (it is written unsanitized). -/
theorem oob_label_values_shape (url digest : String) :
    k8sLabelValueOk (originLabelOf (originPathOf url)) = true ∧
    (firstChars digest 63).data.length ≤ 63 := by
  constructor
  · exact k8sLabelValueOk_originLabelOf (originPathOf url)
  · rw [firstChars]
    show (digest.data.take 63).length ≤ 63
    rw [List.length_take]
    omega

/-- A concrete task whose digest is a string that is not label-safe. -/
def taskBadDigest : Task :=
  { isContainerOp := false, pod_labels := [], containerEnv := [],
    _component_ref := some { url := none, digest := some "!" } }

/-- Counterexample to claim C6 as stated: the transformer writes the digest
label value `"!"` verbatim, which violates Kubernetes label syntax. -/
theorem oob_digest_value_not_sanitized :
    (_add_name_for_oob_components taskBadDigest).pod_labels
        = [(COMPONENT_DIGEST_LABEL_KEY, "!")]
      ∧ k8sLabelValueOk "!" = false := by decide

/-! ### Safety / no-op degradation (C7) -/

/-- A concrete container task with an unrelated label and no component ref. -/
def taskPlain : Task :=
  { isContainerOp := true, pod_labels := [("x", "y")], containerEnv := [],
    _component_ref := none }

/-- Claim C7 (amended): `add_pod_env` with the flag absent and the
origin-label transformer on a task with no `_component_ref` return the task
unchanged, and the `add_pod_labels` transformer is the identity for an
explicit empty mapping; but with the default absent `labels` argument the
returned transformer raises `AttributeError` (`labels.items()` on `None`,
modelled as `none`) instead of returning the task. -/
theorem transformers_noop_safety (t : Task) :
    (lookupVal t.pod_labels "add-pod-env" = none → add_pod_env t = t) ∧
    (t._component_ref = none → _add_name_for_oob_components t = t) ∧
    (_add_pod_labels (some []) t = some t) ∧
    (_add_pod_labels none t = none) := by
  refine ⟨?_, ?_, rfl, rfl⟩
  · intro h
    rw [add_pod_env, if_neg]
    intro hc
    rw [Bool.and_eq_true, Bool.and_eq_true] at hc
    have h2 := hc.2
    rw [beq_iff_eq, h] at h2
    exact Option.noConfusion h2
  · intro h
    simp [_add_name_for_oob_components, h]

/-- Counterexample to claim C7 as stated: the transformer returned by
`add_pod_labels` with its default absent `labels` argument does not return the
task unchanged — it raises (modelled as `none`). -/
theorem add_pod_labels_default_raises :
    _add_pod_labels none taskPlain = none
      ∧ _add_pod_labels none taskPlain ≠ some taskPlain := by decide

/-- Witness for C7 at a concrete task: flag absent and no component ref. -/
theorem transformers_noop_safety_witness :
    add_pod_env taskPlain = taskPlain
      ∧ _add_name_for_oob_components taskPlain = taskPlain :=
  ⟨(transformers_noop_safety taskPlain).1 (by decide),
   (transformers_noop_safety taskPlain).2.1 (by decide)⟩

end KfpTransformers
